import Mathlib

/-!
Shallow embedding of the SmartTaskOrganizer core (task entity and factory,
task registry with observer fan-out, persistence adapter, sort/filter
strategy selection), translated from `src/task.js`, `src/storage.js`,
`src/strategies.js` and the `TaskManager` class (`src/unnamed/part_003`).

JavaScript values that may be `undefined` are modelled as `Option`;
machine-level details that are external builtins (the `new Date(...)`
numeric coercion, `JSON.parse`, identifier generation, the current time)
are passed in as explicit parameters so that every definition stays a pure,
executable function of its inputs.
-/

/-- A task record as built by the `Task` constructor (`src/task.js`).
Every field of a JavaScript object may be `undefined`, modelled as `none`. -/
structure TaskRec where
  id : Option String
  title : Option String
  description : Option String
  deadline : Option String
  priority : Option String
  status : Option String
  createdAt : Option String
  deriving DecidableEq

/-- The record every field of which is `undefined`. -/
def TaskRec.undef : TaskRec :=
  ⟨none, none, none, none, none, none, none⟩

/-- `new Task(id, title, description, deadline, priority)` (`src/task.js`):
stores the five arguments and sets `status = 'ToDo'` and
`createdAt = new Date().toISOString()` (the clock reading is the `now`
parameter). -/
def Task.new (id title description deadline priority : Option String)
    (now : String) : TaskRec :=
  { id := id, title := title, description := description, deadline := deadline,
    priority := priority, status := some "ToDo", createdAt := some now }

/-- `TaskFactory.createTask` (`src/task.js`): generates a fresh identifier
(modelled by the `freshId` parameter) and builds a new record. -/
def TaskFactory.createTask (title description deadline priority : Option String)
    (freshId now : String) : TaskRec :=
  Task.new (some freshId) title description deadline priority now

/-- `TaskFactory.fromObject` (`src/task.js`): builds a record through the
constructor from the raw data's fields, then overwrites `status` and
`createdAt` with the raw data's values.  The source performs no validation
of any field. -/
def TaskFactory.fromObject (raw : TaskRec) (now : String) : TaskRec :=
  let t := Task.new raw.id raw.title raw.description raw.deadline raw.priority now
  { t with status := raw.status, createdAt := raw.createdAt }

/-- JavaScript falsiness of a possibly-`undefined` string value:
`undefined` and the empty string are the falsy cases that can reach the
`!title || !deadline || !priority` check. -/
def falsy : Option String → Bool
  | none => true
  | some s => s == ""

/-- The error taxonomy of the registry's throwing operations:
`Error('Title, deadline, and priority are required')` and
`Error('Task not found')`. -/
inductive TMError where
  | validation
  | notFound
  deriving DecidableEq

/-- Outcome of one registry operation: the returned value or thrown error,
the `this.tasks` collection after the call, the payload of every
`StorageManager.saveTasks` call made, and the snapshot delivered by every
`notifyObservers` fan-out made. -/
structure TMResult (α : Type) where
  result : Except TMError α
  tasks : List TaskRec
  saves : List (List TaskRec)
  notifies : List (List TaskRec)

/-- `TaskManager.createTask` (`src/unnamed/part_003` lines 73-99): validates
`!title || !deadline || !priority`, then builds the task via the factory,
pushes it, auto-saves, and notifies observers.  The rethrowing catch block
leaves the thrown error unchanged. -/
def TaskManager.createTask (tasks : List TaskRec)
    (title description deadline priority : Option String)
    (freshId now : String) : TMResult TaskRec :=
  if falsy title || falsy deadline || falsy priority then
    { result := .error .validation, tasks := tasks, saves := [], notifies := [] }
  else
    let task := TaskFactory.createTask title description deadline priority freshId now
    let tasks2 := tasks ++ [task]
    { result := .ok task, tasks := tasks2, saves := [tasks2], notifies := [tasks2] }

/-- A partial-fields object passed to `updateTask`: `some v` means the key
is present with value `v` (which may itself be `undefined`). -/
structure Updates where
  id : Option (Option String) := none
  title : Option (Option String) := none
  description : Option (Option String) := none
  deadline : Option (Option String) := none
  priority : Option (Option String) := none
  status : Option (Option String) := none
  createdAt : Option (Option String) := none
  deriving DecidableEq

/-- `Object.assign(task, updates)` restricted to the task fields: every key
present in `updates` — `id` and `createdAt` included — is copied onto the
record, overwriting the existing value. -/
def objectAssign (t : TaskRec) (u : Updates) : TaskRec :=
  { id := u.id.getD t.id, title := u.title.getD t.title,
    description := u.description.getD t.description,
    deadline := u.deadline.getD t.deadline,
    priority := u.priority.getD t.priority,
    status := u.status.getD t.status,
    createdAt := u.createdAt.getD t.createdAt }

/-- In-place mutation of the first record matching `p`, at the value level:
`this.tasks.find(...)` followed by `Object.assign` on the found object.
Returns the mutated record and the collection afterwards, or `none` when no
record matches. -/
def updateFirst (p : TaskRec → Bool) (f : TaskRec → TaskRec) :
    List TaskRec → Option (TaskRec × List TaskRec)
  | [] => none
  | t :: rest =>
    if p t then some (f t, f t :: rest)
    else
      match updateFirst p f rest with
      | none => none
      | some r => some (r.1, t :: r.2)

/-- `TaskManager.updateTask` (`src/unnamed/part_003` lines 104-128): finds
the task by strict id equality, merges the partial fields onto it with
`Object.assign`, auto-saves, and notifies; throws `Error('Task not found')`
before any mutation when the id matches no task. -/
def TaskManager.updateTask (tasks : List TaskRec) (idq : Option String)
    (u : Updates) : TMResult TaskRec :=
  match updateFirst (fun t => t.id == idq) (fun t => objectAssign t u) tasks with
  | none => { result := .error .notFound, tasks := tasks, saves := [], notifies := [] }
  | some r =>
    { result := .ok r.1, tasks := r.2, saves := [r.2], notifies := [r.2] }

/-- The possible outcomes of the `localStorage.getItem` call inside
`StorageManager.loadTasks`: a stored blob, `null` (nothing stored), or the
call itself throwing. -/
inductive StorageRead where
  | data (s : String)
  | empty
  | failure
  deriving DecidableEq

/-- One element of a parsed JSON array, as `fromObject` receives it: either
a value on which property access works (objects; primitives read every
property as `undefined`, which the all-`none` record represents), or
`null`, on which any property access throws a TypeError. -/
inductive RawVal where
  | obj (r : TaskRec)
  | nullish
  deriving DecidableEq

/-- A successfully parsed blob, classified by how the code can consume it:
an array (`.length` and `.map` work), a non-`null` non-array value
(`.length` reads `undefined`, calling `.map` throws), or `null`
(already reading `.length` throws). -/
inductive Json where
  | arr (xs : List RawVal)
  | nonArr
  | nullish
  deriving DecidableEq

/-- `StorageManager.loadTasks` (`src/storage.js` lines 15-32): reads the
blob under the fixed key; a falsy read (`null` or the empty string) returns
the literal `[]`.  Otherwise the blob is parsed (`parse` models
`JSON.parse`) and the parsed value is returned as is — the adapter does NOT
check that it is an array of task objects.  The surrounding try/catch turns
a throwing read, an unparsable blob, and the parsed-`null` case (where
logging `tasksData.length` throws) into `[]`, so this function never
throws outward. -/
def StorageManager.loadTasks (parse : String → Except Unit Json) :
    StorageRead → Json
  | .data s =>
    if s == "" then .arr []
    else
      match parse s with
      | .ok (.arr xs) => .arr xs
      | .ok .nonArr => .nonArr
      | .ok .nullish => .arr []
      | .error _ => .arr []
  | .empty => .arr []
  | .failure => .arr []

/-- `TaskFactory.fromObject` applied to one element of the parsed array:
on a `null` element the very first property access (`taskData.id`) throws
a TypeError; on anything else it builds the record without validation. -/
def TaskFactory.fromObjectVal (x : RawVal) (now : String) :
    Except Unit TaskRec :=
  match x with
  | .obj r => .ok (TaskFactory.fromObject r now)
  | .nullish => .error ()

/-- `savedTasks.map(taskData => TaskFactory.fromObject(taskData))`: eager
left-to-right mapping that throws at the first `null` element. -/
def mapFromObject (now : String) : List RawVal → Except Unit (List TaskRec)
  | [] => .ok []
  | x :: xs =>
    match TaskFactory.fromObjectVal x now with
    | .error e => .error e
    | .ok t =>
      match mapFromObject now xs with
      | .error e => .error e
      | .ok ts => .ok (t :: ts)

/-- `TaskManager.loadTasks` (`src/unnamed/part_003` lines 207-227): replaces
`this.tasks` with the factory-reconstructed records from the adapter's
value and notifies observers; no save is performed.  Its catch branch
(lines 222-226) IS reachable: when the adapter hands back a non-array
(`savedTasks.map` is not a function) or an array containing a `null`
element (`fromObject` throws on it), the catch assigns `this.tasks = []`
and returns `[]` WITHOUT notifying observers.  Observer hooks themselves
are modelled as non-throwing sinks (a throwing hook is claim C2's
concern). -/
def TaskManager.loadTasks (parse : String → Except Unit Json)
    (read : StorageRead) (now : String) : TMResult (List TaskRec) :=
  match StorageManager.loadTasks parse read with
  | .arr xs =>
    match mapFromObject now xs with
    | .ok tasks2 =>
      { result := .ok tasks2, tasks := tasks2, saves := [], notifies := [tasks2] }
    | .error _ =>
      { result := .ok [], tasks := [], saves := [], notifies := [] }
  | .nonArr =>
    { result := .ok [], tasks := [], saves := [], notifies := [] }
  | .nullish =>
    { result := .ok [], tasks := [], saves := [], notifies := [] }

/-- The statistics record of `TaskManager.getStatistics`. -/
structure Stats where
  total : Nat
  completed : Nat
  pending : Nat
  highPriority : Nat
  overdue : Nat
  deriving DecidableEq

/-- `TaskManager.getStatistics` (`src/unnamed/part_003` lines 263-281);
`dateOf` models the `new Date(...)` numeric coercion and `now` the current
clock reading. -/
def TaskManager.getStatistics (tasks : List TaskRec)
    (dateOf : Option String → Int) (now : Int) : Stats :=
  let total := tasks.length
  let completed := (tasks.filter (fun t => t.status == some "Completed")).length
  let pending := total - completed
  let highPriority := (tasks.filter (fun t => t.priority == some "High")).length
  let overdue := (tasks.filter (fun t =>
    !(t.status == some "Completed") && decide (dateOf t.deadline < now))).length
  { total := total, completed := completed, pending := pending,
    highPriority := highPriority, overdue := overdue }

/-- An observer as `notifyObservers` sees it: whether it exposes a callable
`update` hook, and whether invoking that hook throws. -/
structure Observer where
  hasUpdate : Bool
  throwsOnUpdate : Bool
  deriving DecidableEq

/-- Iteration of the `forEach` inside `notifyObservers`, carrying the
zero-based position of the head observer: returns the positions whose hook
was invoked, in order, and whether an exception escaped the loop (there is
no per-observer try/catch, so a throwing hook aborts the iteration). -/
def notifyStep : Nat → List Observer → List Nat × Bool
  | _, [] => ([], false)
  | i, o :: rest =>
    if o.hasUpdate then
      if o.throwsOnUpdate then ([i], true)
      else (i :: (notifyStep (i + 1) rest).1, (notifyStep (i + 1) rest).2)
    else notifyStep (i + 1) rest

/-- `TaskManager.notifyObservers` (`src/unnamed/part_003` lines 57-63):
`this.observers.forEach(observer => { if (... typeof observer.update ===
'function') observer.update(this.tasks) })`.  The body contains no
assignment to `this.tasks`, so the collection is untouched; each hook
receives the `this.tasks` array itself. -/
def notifyObservers (observers : List Observer) : List Nat × Bool :=
  notifyStep 0 observers

/-- The positions of the observers exposing a callable `update` hook, in
registration order. -/
def hookIndices : List Observer → List Nat
  | [] => []
  | o :: rest =>
    if o.hasUpdate then 0 :: (hookIndices rest).map (· + 1)
    else (hookIndices rest).map (· + 1)

/-- `SortByDeadline.sort` (`src/strategies.js` lines 24-32):
`[...tasks].sort((a, b) => dateA - dateB)` — the input array is copied
before sorting, and `Array.prototype.sort` is a stable sort ordering by the
comparator, embedded as a stable merge sort on the `dateOf` coercion of the
deadline field. -/
def SortByDeadline.sort (dateOf : Option String → Int)
    (tasks : List TaskRec) : List TaskRec :=
  tasks.mergeSort (fun a b => decide (dateOf a.deadline ≤ dateOf b.deadline))

/-- The three sort strategies `StrategyFactory.getSortStrategy` can return. -/
inductive SortKind where
  | deadline
  | priority
  | created
  deriving DecidableEq

/-- The five filter strategies `StrategyFactory.getFilterStrategy` can
return. -/
inductive FilterKind where
  | all
  | completed
  | notCompleted
  | highPriority
  | overdue
  deriving DecidableEq

/-- `StrategyFactory.getSortStrategy` (`src/strategies.js` lines 181-192):
a switch over the key with `new SortByDeadline()` as the default case. -/
def StrategyFactory.getSortStrategy (key : String) : SortKind :=
  if key == "deadline" then .deadline
  else if key == "priority" then .priority
  else if key == "created" then .created
  else .deadline

/-- `StrategyFactory.getFilterStrategy` (`src/strategies.js` lines 194-209):
a switch over the key with `new FilterAll()` as the default case. -/
def StrategyFactory.getFilterStrategy (key : String) : FilterKind :=
  if key == "all" then .all
  else if key == "completed" then .completed
  else if key == "notCompleted" then .notCompleted
  else if key == "highPriority" then .highPriority
  else if key == "overdue" then .overdue
  else .all

/-- Reference-level model of the registry, for the claims about aliasing:
task objects live in a cell store, arrays of task references live in an
array store, and `tasksRef` is the reference held in `this.tasks`. -/
structure RegState where
  cells : List TaskRec
  arrays : List (List Nat)
  tasksRef : Nat
  deriving DecidableEq

/-- The cell references currently stored in the registry's own array. -/
def RegState.contents (s : RegState) : List Nat :=
  s.arrays.getD s.tasksRef []

/-- Dereference one task cell. -/
def RegState.cellAt (s : RegState) (c : Nat) : TaskRec :=
  s.cells.getD c TaskRec.undef

/-- The task records a reader of `this.tasks` observes. -/
def RegState.collection (s : RegState) : List TaskRec :=
  s.contents.map s.cellAt

/-- In-place mutation of the array object behind reference `r` (element
assignment, push, splice): its contents become `v`. -/
def RegState.setArray (s : RegState) (r : Nat) (v : List Nat) : RegState :=
  { s with arrays := s.arrays.set r v }

/-- A field assignment `task.status = v` performed directly through a task
reference, with no registry call involved. -/
def RegState.assignStatus (s : RegState) (c : Nat) (v : Option String) : RegState :=
  { s with cells := s.cells.set c { s.cellAt c with status := v } }

/-- `TaskManager.getAllTasks` (`src/unnamed/part_003` lines 161-163):
`return [...this.tasks]` — allocates a fresh array object holding the same
task references and returns the fresh reference. -/
def TaskManager.getAllTasks (s : RegState) : Nat × RegState :=
  (s.arrays.length, { s with arrays := s.arrays ++ [s.contents] })

/-- The task records seen through the array `getAllTasks` returns. -/
def TaskManager.getAllRecords (s : RegState) : List TaskRec :=
  let r := TaskManager.getAllTasks s
  (r.2.arrays.getD r.1 []).map r.2.cellAt

/-- The array reference `notifyObservers` passes to every hook:
`observer.update(this.tasks)` hands over the registry's own array, not a
copy. -/
def TaskManager.observerSnapshotRef (s : RegState) : Nat :=
  s.tasksRef

/-- `TaskManager.getTaskById` (`src/unnamed/part_003` lines 168-170):
`return this.tasks.find(t => t.id === id)` — the returned value is the task
reference itself, not a copy of the record. -/
def TaskManager.getTaskById (s : RegState) (idq : Option String) : Option Nat :=
  s.contents.find? (fun c => (s.cellAt c).id == idq)

/-- The record sequence `StorageManager.saveTasks(this.tasks)` serializes
when `TaskManager.saveTasks` runs on state `s`. -/
def TaskManager.savePayload (s : RegState) : List TaskRec :=
  s.collection

/-- A concrete well-formed task record used by concrete instances below. -/
def sampleTask : TaskRec :=
  { id := some "a", title := some "T", description := none,
    deadline := some "2025-01-01", priority := some "High",
    status := some "ToDo", createdAt := some "t0" }

/-- A concrete registry state holding exactly `sampleTask`. -/
def regDemo : RegState :=
  { cells := [sampleTask], arrays := [[0]], tasksRef := 0 }

/-- The partial-fields object `{status: v}`. -/
def statusOnly (v : Option String) : Updates :=
  { status := some v }

/-- A `JSON.parse` model that always fails, standing for an unparsable blob. -/
def parseFailDemo : String → Except Unit Json :=
  fun _ => .error ()

/-- A `JSON.parse` model under which the blob `"[null]"` parses to the
one-element array `[null]` and everything else fails to parse. -/
def parseNullArrDemo : String → Except Unit Json :=
  fun s => if s == "[null]" then .ok (.arr [.nullish]) else .error ()

/-! ### Helper lemmas -/

theorem updateFirst_map_eq {β : Type} {p : TaskRec → Bool} {g : TaskRec → TaskRec}
    {f : TaskRec → β} (hg : ∀ t, f (g t) = f t) :
    ∀ {tasks : List TaskRec} {r : TaskRec × List TaskRec},
      updateFirst p g tasks = some r → r.2.map f = tasks.map f := by
  intro tasks
  induction tasks with
  | nil => intro r h; exact absurd h (by simp [updateFirst])
  | cons t rest ih =>
    intro r h
    rw [updateFirst] at h
    by_cases hp : p t
    · rw [if_pos hp] at h
      cases h
      simp [hg]
    · rw [if_neg hp] at h
      cases hm : updateFirst p g rest with
      | none => rw [hm] at h; cases h
      | some r2 =>
        rw [hm] at h
        cases h
        simp [ih hm]

theorem updateTask_tasks_map_eq {β : Type} (tasks : List TaskRec)
    (idq : Option String) (u : Updates) (f : TaskRec → β)
    (hg : ∀ t, f (objectAssign t u) = f t) :
    (TaskManager.updateTask tasks idq u).tasks.map f = tasks.map f := by
  unfold TaskManager.updateTask
  cases hm : updateFirst (fun t => t.id == idq) (fun t => objectAssign t u) tasks with
  | none => rfl
  | some r => exact updateFirst_map_eq hg hm

theorem updateFirst_eq_none {p : TaskRec → Bool} {g : TaskRec → TaskRec}
    {tasks : List TaskRec} (h : ∀ t ∈ tasks, p t = false) :
    updateFirst p g tasks = none := by
  induction tasks with
  | nil => rfl
  | cons t rest ih =>
    rw [updateFirst, if_neg (by simp [h t (by simp)]),
      ih (fun t2 ht2 => h t2 (by simp [ht2]))]

/-! ### Claim C1 -/

/-- Claim C1 counterexample: on a registry holding `sampleTask` (id `"a"`,
createdAt `"t0"`), `updateTask` with a partial-fields object containing
`id` and `createdAt` keys overwrites both fields — `Object.assign` copies
every provided key — contradicting the claim that id and createdAt are
unchanged even when present in the partial fields. -/
theorem updateTask_overwrites_id_cex :
    (TaskManager.updateTask [sampleTask] (some "a")
      { id := some (some "b"), createdAt := some (some "t9") }).tasks.map
        (fun t => (t.id, t.createdAt)) = [(some "b", some "t9")] := by
  rfl

/-- Claim C1 (amended): `updateTask` applies every provided field onto the
existing record; when the partial-fields object does not contain `id` or
`createdAt` keys those two fields are unchanged across the whole
collection, and `updateTask id {status: v}` changes only the status field
of the matched record. -/
theorem updateTask_frame (tasks : List TaskRec) (idq : Option String)
    (u : Updates) (v : Option String)
    (hid : u.id = none) (hcr : u.createdAt = none) :
    (TaskManager.updateTask tasks idq u).tasks.map
        (fun t => (t.id, t.createdAt)) =
      tasks.map (fun t => (t.id, t.createdAt)) ∧
    (TaskManager.updateTask tasks idq (statusOnly v)).tasks.map
        (fun t => (t.id, t.title, t.description, t.deadline, t.priority, t.createdAt)) =
      tasks.map
        (fun t => (t.id, t.title, t.description, t.deadline, t.priority, t.createdAt)) := by
  constructor
  · exact updateTask_tasks_map_eq tasks idq u _
      (fun t => by simp [objectAssign, hid, hcr])
  · exact updateTask_tasks_map_eq tasks idq (statusOnly v) _
      (fun t => by simp [objectAssign, statusOnly])

/-- Witness for C1 at a concrete registry and a title-only update. -/
theorem updateTask_frame_witness :
    ((TaskManager.updateTask [sampleTask] (some "a")
        { title := some (some "U") }).tasks.map
          (fun t => (t.id, t.createdAt)) =
      [sampleTask].map (fun t => (t.id, t.createdAt))) ∧
    ((TaskManager.updateTask [sampleTask] (some "a")
        (statusOnly (some "Completed"))).tasks.map
          (fun t => (t.id, t.title, t.description, t.deadline, t.priority, t.createdAt)) =
      [sampleTask].map
        (fun t => (t.id, t.title, t.description, t.deadline, t.priority, t.createdAt))) :=
  updateTask_frame [sampleTask] (some "a") { title := some (some "U") }
    (some "Completed") rfl rfl

/-! ### Claim C4 -/

/-- Claim C4: when title, deadline, or priority is empty or missing
(JavaScript-falsy), `createTask` throws the validation error before any
mutation: the collection is exactly the one before the call, no save is
performed and no observer notification fires. -/
theorem createTask_validation_leaves_state (tasks : List TaskRec)
    (title description deadline priority : Option String) (freshId now : String)
    (h : (falsy title || falsy deadline || falsy priority) = true) :
    TaskManager.createTask tasks title description deadline priority freshId now =
      { result := .error .validation, tasks := tasks, saves := [], notifies := [] } := by
  unfold TaskManager.createTask
  rw [if_pos h]

/-- Witness for C4 at an empty title. -/
theorem createTask_validation_witness :
    TaskManager.createTask [sampleTask] (some "") (some "d")
        (some "2025-01-01") (some "High") "id1" "t1" =
      { result := .error .validation, tasks := [sampleTask],
        saves := [], notifies := [] } :=
  createTask_validation_leaves_state [sampleTask] (some "") (some "d")
    (some "2025-01-01") (some "High") "id1" "t1" (by decide)

/-! ### Claim C6 -/

/-- Claim C6 counterexample: `fromObject` applied to raw data in which every
required field (title, deadline, priority) is missing does not fail — it
produces a record whose required fields are all `undefined`, contradicting
the claim that it fails with a ValidationError. -/
theorem fromObject_missing_fields_cex :
    TaskFactory.fromObject TaskRec.undef "t0" = TaskRec.undef := by
  rfl

/-- Claim C6 (amended): `fromObject` performs no field validation at all: it
reconstructs a record by copying all seven fields from the raw data
(missing fields stay `undefined`) and never fails. -/
theorem fromObject_copies_all_fields (raw : TaskRec) (now : String) :
    TaskFactory.fromObject raw now = raw := by
  rfl

/-! ### Claim C7 -/

/-- Claim C7: when the id matches no stored task, `updateTask` throws the
not-found error before any mutation: the collection is exactly the one
before the call, no save is performed and no observer notification fires. -/
theorem updateTask_notFound_no_effects (tasks : List TaskRec)
    (idq : Option String) (u : Updates) (h : ∀ t ∈ tasks, t.id ≠ idq) :
    TaskManager.updateTask tasks idq u =
      { result := .error .notFound, tasks := tasks, saves := [], notifies := [] } := by
  unfold TaskManager.updateTask
  rw [updateFirst_eq_none (fun t ht => by simp [h t ht])]

/-- Witness for C7 at an id absent from a concrete registry. -/
theorem updateTask_notFound_witness :
    TaskManager.updateTask [sampleTask] (some "zzz") {} =
      { result := .error .notFound, tasks := [sampleTask],
        saves := [], notifies := [] } :=
  updateTask_notFound_no_effects [sampleTask] (some "zzz") {} (by decide)

/-! ### Claim C2 -/


theorem hookIndices_map_shift (l : List Observer) (i : Nat) :
    ((hookIndices l).map (· + 1)).map (· + i) = (hookIndices l).map (· + (i + 1)) := by
  rw [List.map_map]
  exact List.map_congr_left (fun x _ => by simp [Function.comp]; omega)

theorem notifyStep_no_throw (obs : List Observer)
    (h : ∀ o ∈ obs, o.hasUpdate = true → o.throwsOnUpdate = false) :
    ∀ i : Nat, notifyStep i obs = ((hookIndices obs).map (· + i), false) := by
  induction obs with
  | nil => intro i; rfl
  | cons o rest ih =>
    intro i
    have hrest := ih (fun x hx hu => h x (by simp [hx]) hu) (i + 1)
    by_cases hu : o.hasUpdate
    · have ht : o.throwsOnUpdate = false := h o (by simp) hu
      rw [notifyStep, if_pos hu, if_neg (by simp [ht]), hrest, hookIndices,
        if_pos hu, List.map_cons, hookIndices_map_shift, Nat.zero_add]
    · rw [notifyStep, if_neg hu, hrest, hookIndices, if_neg hu,
        hookIndices_map_shift]

theorem notifyStep_first_throw (obs2 : List Observer) (o : Observer)
    (hu : o.hasUpdate = true) (ht : o.throwsOnUpdate = true) :
    ∀ obs1 : List Observer,
      (∀ x ∈ obs1, x.hasUpdate = true → x.throwsOnUpdate = false) →
      ∀ i : Nat, notifyStep i (obs1 ++ o :: obs2) =
        ((hookIndices obs1).map (· + i) ++ [i + obs1.length], true) := by
  intro obs1
  induction obs1 with
  | nil =>
    intro _ i
    rw [List.nil_append, notifyStep, if_pos hu, if_pos ht]
    rfl
  | cons o1 rest ih =>
    intro h1 i
    have hrest := ih (fun x hx hx2 => h1 x (by simp [hx]) hx2) (i + 1)
    have harith : i + 1 + rest.length = i + (rest.length + 1) := by omega
    by_cases hu1 : o1.hasUpdate
    · have ht1 : o1.throwsOnUpdate = false := h1 o1 (by simp) hu1
      rw [List.cons_append, notifyStep, if_pos hu1, if_neg (by simp [ht1]),
        hrest, hookIndices, if_pos hu1, List.map_cons, hookIndices_map_shift,
        Nat.zero_add, List.length_cons, harith, List.cons_append]
    · rw [List.cons_append, notifyStep, if_neg hu1, hrest, hookIndices,
        if_neg hu1, hookIndices_map_shift, List.length_cons, harith]

/-- Claim C2 counterexample: with two registered observers whose first
throws, `notifyObservers` invokes only position 0 and lets the exception
escape — the second registered observer never receives the notification,
contradicting the claim that every observer registered after a throwing one
is still notified. -/
theorem notifyObservers_throw_cex :
    notifyObservers [⟨true, true⟩, ⟨true, false⟩] = ([0], true) ∧
    1 ∉ (notifyObservers [⟨true, true⟩, ⟨true, false⟩]).1 := by
  exact ⟨rfl, by decide⟩

/-- Claim C2 (amended): `notifyObservers` invokes the `update` hook of each
registered observer that has a callable one, in registration order; when no
hook throws, every such observer is invoked exactly once (the delivered
positions are exactly `hookIndices`).  When a hook throws, the exception
escapes the `forEach` — the loop has no per-observer isolation — so exactly
the hook-bearing observers up to and including the first thrower are
invoked and none after it.  The body of `notifyObservers` never assigns to
the task collection. -/
theorem notifyObservers_delivery (obs obs1 obs2 : List Observer) (o : Observer)
    (hsafe : ∀ x ∈ obs, x.hasUpdate = true → x.throwsOnUpdate = false)
    (h1 : ∀ x ∈ obs1, x.hasUpdate = true → x.throwsOnUpdate = false)
    (hu : o.hasUpdate = true) (ht : o.throwsOnUpdate = true) :
    notifyObservers obs = (hookIndices obs, false) ∧
    notifyObservers (obs1 ++ o :: obs2) =
      (hookIndices obs1 ++ [obs1.length], true) := by
  constructor
  · rw [notifyObservers, notifyStep_no_throw obs hsafe 0]
    simp
  · rw [notifyObservers, notifyStep_first_throw obs2 o hu ht obs1 h1 0]
    simp

/-- An observer with a callable, non-throwing `update` hook. -/
def obSafe : Observer := ⟨true, false⟩

/-- A registered object without a callable `update` hook. -/
def obNoHook : Observer := ⟨false, false⟩

/-- An observer whose `update` hook throws. -/
def obThrow : Observer := ⟨true, true⟩

/-- Witness for C2: one safe observer delivers, and with a thrower at
position 2 the trailing observer is skipped. -/
theorem notifyObservers_delivery_witness :
    notifyObservers [obSafe] = (hookIndices [obSafe], false) ∧
    notifyObservers ([obSafe, obNoHook] ++ obThrow :: [obSafe]) =
      (hookIndices [obSafe, obNoHook] ++ [List.length [obSafe, obNoHook]], true) :=
  notifyObservers_delivery [obSafe] [obSafe, obNoHook] [obSafe] obThrow
    (by decide) (by decide) rfl rfl

/-! ### Claim C3 -/

/-- Claim C3 counterexample: on a registry holding one task, the sequence
delivered to an observer's `update` hook is the registry's internal array
itself (`observer.update(this.tasks)`), so emptying that delivered array
empties the registry's own collection as seen by any subsequent read —
contradicting the claim that every externally handed-out sequence is a
defensive copy. -/
theorem observerSnapshot_mutation_cex :
    RegState.collection regDemo = [sampleTask] ∧
    RegState.collection
      (regDemo.setArray (TaskManager.observerSnapshotRef regDemo) []) = [] := by
  exact ⟨rfl, rfl⟩

/-- Claim C3 (amended): `getAllTasks` does return a fresh array — mutating
the array it hands out never changes the registry's collection — but the
sequence delivered to an observer's `update` hook is the registry's own
`this.tasks` array, not a copy. -/
theorem getAllTasks_defensive_copy (s : RegState) (v : List Nat)
    (h : s.tasksRef < s.arrays.length) :
    RegState.collection
      (RegState.setArray (TaskManager.getAllTasks s).2
        (TaskManager.getAllTasks s).1 v) = s.collection ∧
    TaskManager.observerSnapshotRef s = s.tasksRef := by
  refine ⟨?_, rfl⟩
  unfold RegState.collection RegState.contents RegState.cellAt
    RegState.setArray TaskManager.getAllTasks
  simp only []
  congr 1
  rw [List.getD_eq_getElem?_getD, List.getD_eq_getElem?_getD,
    List.getElem?_set_ne (by omega), List.getElem?_append_left h]

/-- Witness for C3 at the one-task registry, emptying the fresh array. -/
theorem getAllTasks_defensive_copy_witness :
    RegState.collection
      (RegState.setArray (TaskManager.getAllTasks regDemo).2
        (TaskManager.getAllTasks regDemo).1 []) = regDemo.collection ∧
    TaskManager.observerSnapshotRef regDemo = regDemo.tasksRef :=
  getAllTasks_defensive_copy regDemo [] (by decide)

/-! ### Claim C5 -/

/-- Claim C5 counterexample: a stored blob `"[null]"` is valid JSON, so the
adapter returns the array `[null]` successfully; `fromObject(null)` then
throws inside `loadTasks`'s own try, and the catch (part_003 lines 222-226)
replaces the collection with `[]` and returns normally WITHOUT calling
`notifyObservers` — contradicting the claim that in every
failure/fallback case the registered observers are still notified. -/
theorem loadTasks_catch_no_notify_cex :
    (TaskManager.loadTasks parseNullArrDemo (.data "[null]") "t0").result =
      .ok [] ∧
    (TaskManager.loadTasks parseNullArrDemo (.data "[null]") "t0").tasks = [] ∧
    (TaskManager.loadTasks parseNullArrDemo (.data "[null]") "t0").notifies =
      [] := by
  exact ⟨rfl, rfl, rfl⟩

/-- Claim C5 (amended): `loadTasks` always returns normally — no exception
propagates, the result is the final collection in every case.  When the
adapter has no stored data, the read throws, the blob is empty or
unparsable, or it parses to `null`, the adapter itself falls back to `[]`,
so the collection becomes empty and the observers ARE still notified (with
the empty snapshot).  But when a blob parses to a non-array or to an array
containing a `null` element, reconstruction throws inside `loadTasks`'s own
try and its catch replaces the collection with the empty sequence WITHOUT
notifying observers. -/
theorem loadTasks_fallback (parse : String → Except Unit Json)
    (read : StorageRead) (now : String) :
    ((TaskManager.loadTasks parse read now).result =
      .ok (TaskManager.loadTasks parse read now).tasks) ∧
    ((read = .empty ∨ read = .failure ∨
        (∃ str, read = .data str ∧
          (str = "" ∨ parse str = .error () ∨ parse str = .ok .nullish))) →
      (TaskManager.loadTasks parse read now).tasks = [] ∧
      (TaskManager.loadTasks parse read now).notifies = [[]]) ∧
    ((∃ str, read = .data str ∧ str ≠ "" ∧
        (parse str = .ok .nonArr ∨
          (∃ xs, parse str = .ok (.arr xs) ∧
            mapFromObject now xs = .error ()))) →
      (TaskManager.loadTasks parse read now).tasks = [] ∧
      (TaskManager.loadTasks parse read now).notifies = []) := by
  refine ⟨?_, fun hfb => ?_, fun hcatch => ?_⟩
  · unfold TaskManager.loadTasks
    split
    · split
      · rfl
      · rfl
    · rfl
    · rfl
  · rcases hfb with h | h | ⟨str, hr, hcase⟩
    · subst h; exact ⟨rfl, rfl⟩
    · subst h; exact ⟨rfl, rfl⟩
    · subst hr
      rcases hcase with h0 | hp | hp
      · subst h0; exact ⟨rfl, rfl⟩
      · by_cases hstr : str = ""
        · subst hstr; exact ⟨rfl, rfl⟩
        · have hb : (str == "") = false := beq_eq_false_iff_ne.2 hstr
          simp [TaskManager.loadTasks, StorageManager.loadTasks,
            mapFromObject, hb, hp]
      · by_cases hstr : str = ""
        · subst hstr; exact ⟨rfl, rfl⟩
        · have hb : (str == "") = false := beq_eq_false_iff_ne.2 hstr
          simp [TaskManager.loadTasks, StorageManager.loadTasks,
            mapFromObject, hb, hp]
  · obtain ⟨str, hr, hne, hbad⟩ := hcatch
    subst hr
    have hb : (str == "") = false := beq_eq_false_iff_ne.2 hne
    rcases hbad with hp | ⟨xs, hp, hm⟩
    · simp [TaskManager.loadTasks, StorageManager.loadTasks, hb, hp]
    · simp [TaskManager.loadTasks, StorageManager.loadTasks, hb, hp, hm]

/-- Witness for C5: with a throwing storage read, the collection becomes
empty and the observers are still notified with the empty snapshot. -/
theorem loadTasks_fallback_witness :
    (TaskManager.loadTasks parseFailDemo .failure "t0").tasks = [] ∧
    (TaskManager.loadTasks parseFailDemo .failure "t0").notifies = [[]] :=
  (loadTasks_fallback parseFailDemo .failure "t0").2.1 (Or.inr (Or.inl rfl))

/-! ### Claim C8 -/

theorem mergeSort_filter_stable {α : Type} (key : α → Int) (l : List α)
    (p : α → Bool) (hp : ∀ a, p a = true → ∀ b, p b = true → key a = key b) :
    (l.mergeSort (fun a b => decide (key a ≤ key b))).filter p = l.filter p := by
  have htrans : ∀ a b c : α, (fun a b => decide (key a ≤ key b)) a b = true →
      (fun a b => decide (key a ≤ key b)) b c = true →
      (fun a b => decide (key a ≤ key b)) a c = true := by
    intro a b c hab hbc
    simp only [decide_eq_true_eq] at hab hbc ⊢
    omega
  have htot : ∀ a b : α, ((fun a b => decide (key a ≤ key b)) a b ||
      (fun a b => decide (key a ≤ key b)) b a) = true := by
    intro a b
    simp only [Bool.or_eq_true, decide_eq_true_eq]
    omega
  have hpair : (l.filter p).Pairwise
      (fun a b => (fun a b => decide (key a ≤ key b)) a b = true) := by
    refine List.pairwise_of_forall_mem_list (fun a ha b hb => ?_)
    rw [List.mem_filter] at ha hb
    simp only [decide_eq_true_eq]
    rw [hp a ha.2 b hb.2]
  have hsub : (l.filter p).Sublist
      (l.mergeSort (fun a b => decide (key a ≤ key b))) :=
    List.sublist_mergeSort htrans htot hpair (List.filter_sublist l)
  have hself : (l.filter p).filter p = l.filter p :=
    List.filter_eq_self.2 (fun a ha => (List.mem_filter.1 ha).2)
  have hsub2 : (l.filter p).Sublist
      ((l.mergeSort (fun a b => decide (key a ≤ key b))).filter p) := by
    rw [← hself]
    exact List.Sublist.filter p hsub
  have hlen : (l.filter p).length =
      ((l.mergeSort (fun a b => decide (key a ≤ key b))).filter p).length :=
    (((List.mergeSort_perm l _).filter p).length_eq).symm
  exact (hsub2.eq_of_length hlen).symm

/-- Claim C8: the deadline sort strategy returns a sequence that is a
permutation of the input (the input list itself is untouched — the source
sorts a copy, and the embedding is a pure function of the input), ordered
ascending by the date value of the deadline, and stable: the tasks carrying
any fixed deadline value appear in the output in exactly their input
order. -/
theorem sortByDeadline_sorted_stable (dateOf : Option String → Int)
    (tasks : List TaskRec) (d : Option String) :
    (SortByDeadline.sort dateOf tasks).Perm tasks ∧
    (SortByDeadline.sort dateOf tasks).Pairwise
      (fun a b => dateOf a.deadline ≤ dateOf b.deadline) ∧
    (SortByDeadline.sort dateOf tasks).filter (fun t => t.deadline == d) =
      tasks.filter (fun t => t.deadline == d) := by
  refine ⟨List.mergeSort_perm tasks _, ?_, ?_⟩
  · have h := @List.sorted_mergeSort TaskRec
      (fun a b => decide (dateOf a.deadline ≤ dateOf b.deadline))
      (fun a b c hab hbc => by
        simp only [decide_eq_true_eq] at hab hbc ⊢; omega)
      (fun a b => by simp only [Bool.or_eq_true, decide_eq_true_eq]; omega)
      tasks
    exact h.imp (fun hab => by simpa using hab)
  · refine mergeSort_filter_stable (fun t => dateOf t.deadline) tasks _ ?_
    intro a ha b hb
    rw [beq_iff_eq] at ha hb
    simp only [ha, hb]

/-! ### Claim C9 -/

/-- Claim C9: strategy selection never fails — any key outside the three
recognized sort keys yields the deadline sort strategy, and any key outside
the five recognized filter keys yields the `all` filter strategy. -/
theorem strategyFactory_unknown_key_fallback (ks kf : String)
    (hs : ks ∉ ["deadline", "priority", "created"])
    (hf : kf ∉ ["all", "completed", "notCompleted", "highPriority", "overdue"]) :
    StrategyFactory.getSortStrategy ks = SortKind.deadline ∧
    StrategyFactory.getFilterStrategy kf = FilterKind.all := by
  simp only [List.mem_cons, List.not_mem_nil, or_false, not_or] at hs hf
  obtain ⟨h1, h2, h3⟩ := hs
  obtain ⟨g1, g2, g3, g4, g5⟩ := hf
  constructor
  · unfold StrategyFactory.getSortStrategy
    simp [h1, h2, h3]
  · unfold StrategyFactory.getFilterStrategy
    simp [g1, g2, g3, g4, g5]

/-- Witness for C9 at an unrecognized key. -/
theorem strategyFactory_unknown_key_fallback_witness :
    StrategyFactory.getSortStrategy "bogus" = SortKind.deadline ∧
    StrategyFactory.getFilterStrategy "bogus2" = FilterKind.all :=
  strategyFactory_unknown_key_fallback "bogus" "bogus2" (by decide) (by decide)

/-! ### Claim C10 -/

theorem getAllRecords_eq_collection (s : RegState) :
    TaskManager.getAllRecords s = s.collection := by
  unfold TaskManager.getAllRecords TaskManager.getAllTasks RegState.collection
    RegState.contents RegState.cellAt
  simp only []
  congr 1
  rw [List.getD_eq_getElem?_getD, List.getElem?_concat_length]
  rfl

/-- Claim C10: `getTaskById` returns the registry's own task reference, not
a copy: the returned reference matches the queried id, it is one of the
references in the registry's own array, and a field assignment made through
it (here `task.status = v`, with no `updateTask` call involved) is
immediately visible in the registry's collection — which is exactly what
subsequent `getAllTasks` dereferences and what `saveTasks` serializes. -/
theorem getTaskById_live_reference (s : RegState) (idq : Option String)
    (c : Nat) (v : Option String)
    (hwf : ∀ x ∈ s.contents, x < s.cells.length)
    (h : TaskManager.getTaskById s idq = some c) :
    (s.cellAt c).id = idq ∧
    c ∈ s.contents ∧
    RegState.collection (s.assignStatus c v) =
      s.contents.map (fun x => if x = c then { s.cellAt c with status := v }
        else s.cellAt x) ∧
    TaskManager.savePayload (s.assignStatus c v) =
      RegState.collection (s.assignStatus c v) ∧
    TaskManager.getAllRecords (s.assignStatus c v) =
      RegState.collection (s.assignStatus c v) := by
  unfold TaskManager.getTaskById at h
  have hmem : c ∈ s.contents := List.mem_of_find?_eq_some h
  have hid : (s.cellAt c).id = idq := by
    have := List.find?_some h
    rwa [beq_iff_eq] at this
  refine ⟨hid, hmem, ?_, rfl, getAllRecords_eq_collection _⟩
  have hcontents : (s.assignStatus c v).contents = s.contents := rfl
  unfold RegState.collection
  rw [hcontents]
  refine List.map_congr_left (fun x hx => ?_)
  by_cases hxc : x = c
  · subst hxc
    have hc : x < s.cells.length := hwf x hx
    simp only [if_pos rfl]
    unfold RegState.cellAt RegState.assignStatus
    simp only []
    rw [List.getD_eq_getElem?_getD, List.getElem?_set_self hc]
    rfl
  · simp only [if_neg hxc]
    unfold RegState.cellAt RegState.assignStatus
    simp only []
    rw [List.getD_eq_getElem?_getD, List.getElem?_set_ne (fun he => hxc he.symm),
      ← List.getD_eq_getElem?_getD]

/-- Witness for C10 at the one-task registry, completing the task through
the reference `getTaskById` returned. -/
theorem getTaskById_live_reference_witness :
    (regDemo.cellAt 0).id = some "a" ∧
    0 ∈ regDemo.contents ∧
    RegState.collection (regDemo.assignStatus 0 (some "Completed")) =
      regDemo.contents.map (fun x => if x = 0 then
        { regDemo.cellAt 0 with status := some "Completed" }
        else regDemo.cellAt x) ∧
    TaskManager.savePayload (regDemo.assignStatus 0 (some "Completed")) =
      RegState.collection (regDemo.assignStatus 0 (some "Completed")) ∧
    TaskManager.getAllRecords (regDemo.assignStatus 0 (some "Completed")) =
      RegState.collection (regDemo.assignStatus 0 (some "Completed")) :=
  getTaskById_live_reference regDemo (some "a") 0 (some "Completed")
    (by decide) rfl
